import Mathlib

/-
Verification of mslib/mss_util.py (Mission Support System utilities).

Shallow embedding conventions:
  - Python/numpy floating-point values are modelled as exact rationals (ℚ);
    claims stated "within floating-point tolerance" become exact equalities.
    NaN produced by scipy.interpolate.interp1d for out-of-bounds queries is
    modelled with Option (none = NaN / masked).
  - Timestamps (datetime objects) are modelled as integer seconds (ℤ);
    datetime.timedelta(minutes=10) is 600 seconds.
  - numpy arrays are modelled as Lists; numpy 3-D arrays as nested Lists
    together with rectangularity hypotheses where a theorem needs them.
  - Python functions that can raise return Option (none = exception raised).
  - scipy library calls are embedded by their documented semantics:
    RectBivariateSpline with kx=ky=1 is the piecewise-bilinear interpolant
    (lin1 / spline2At below); scipy.ndimage.map_coordinates with order=1 and
    the default constant mode is linear interpolation in index space with
    cval=0 outside the input extent (mapc1core / mapc2 below);
    scipy.interpolate.interp1d(axis, arange(n), bounds_error=False) is the
    piecewise-linear value-to-index map returning NaN outside the axis range
    (interp1dIndex below).  Behaviour of the Fortran spline evaluator on
    unsorted query sequences or outside the knot range, and floating overflow
    or division-by-zero cascades, are outside the modelled domain; every
    theorem below evaluates these embeddings only where their semantics is
    the documented one.
-/

namespace MSSUtil

/-! ### fix_angle (mss_util.py lines 178-186)

    def fix_angle(ang):
        while ang > 360: ang -= 360
        while ang < 0:   ang += 360
        return ang
-/

/-- First while loop of fix_angle: subtract 360 while the angle exceeds 360. -/
def fixAngleSub (a : ℚ) : ℚ :=
  if 360 < a then fixAngleSub (a - 360) else a
termination_by (Int.ceil a).toNat
decreasing_by
  rename_i h
  have h1 : (360 : ℤ) < Int.ceil a := by
    rw [Int.lt_ceil]; exact_mod_cast h
  have h2 : Int.ceil (a - 360) = Int.ceil a - 360 := by simp
  omega

/-- Second while loop of fix_angle: add 360 while the angle is negative. -/
def fixAngleAdd (a : ℚ) : ℚ :=
  if a < 0 then fixAngleAdd (a + 360) else a
termination_by (-Int.floor a).toNat
decreasing_by
  rename_i h
  have h1 : Int.floor a < 0 := by
    rw [Int.floor_lt]; exact_mod_cast h
  have h2 : Int.floor (a + 360) = Int.floor a + 360 := by simp
  omega

/-- Embedding of fix_angle: the two while loops in sequence. -/
def fix_angle (a : ℚ) : ℚ := fixAngleAdd (fixAngleSub a)

/-! ### Interpolation helpers (scipy call semantics) -/

/-- Degree-1 (linear) spline evaluation on knots `axis` with values `f`,
    the documented semantics of a 1-D slice of
    scipy.interpolate.RectBivariateSpline(..., kx=1, ky=1): locate the knot
    segment containing v (the last segment catching everything to the right)
    and interpolate linearly on it.  Used only where the theorems guarantee a
    strictly increasing axis and (except where explicitly noted) an
    in-range v. -/
def lin1 : List ℚ → List ℚ → ℚ → ℚ
  | a :: b :: rest, fa :: fb :: frest, v =>
    if v < b ∨ rest = [] then fa + (v - a) * (fb - fa) / (b - a)
    else lin1 (b :: rest) (fb :: frest) v
  | _, _, _ => 0

/-- Bilinear spline value of RectBivariateSpline(data3D_lats, data3D_lons,
    data, kx=1, ky=1) at one query point (la, lo): tensor-product of
    two degree-1 interpolations. -/
def spline2At (axla axlo : List ℚ) (data : List (List ℚ)) (la lo : ℚ) : ℚ :=
  lin1 axla (data.map (fun row => lin1 axlo row lo)) la

/-- The strictly-increasing check performed by the RectBivariateSpline
    constructor on each coordinate axis. -/
def strictIncr : List ℚ → Bool
  | [] => true
  | [_] => true
  | a :: b :: rest => a < b && strictIncr (b :: rest)

/-- Shape agreement checked by the RectBivariateSpline constructor:
    the 2-D data slice has nr rows of nc columns each. -/
abbrev gridShape (m : List (List ℚ)) (nr nc : ℕ) : Prop :=
  m.length = nr ∧ ∀ row ∈ m, row.length = nc

/-- Core of scipy.ndimage.map_coordinates order=1 in one dimension:
    linear interpolation of list f at fractional index c (range checking is
    done by the caller mapc2; out-of-range reads get weight 0 here). -/
def mapc1core (f : List ℚ) (c : ℚ) : ℚ :=
  (1 - (c - Int.floor c)) * f.getD (Int.floor c).toNat 0 +
    (c - Int.floor c) * f.getD ((Int.floor c).toNat + 1) 0

/-- scipy.ndimage.map_coordinates(data, [[ci],[cj]], order=1) for one output
    position: bilinear interpolation in index space; coordinates outside the
    input extent give the constant fill value cval = 0. -/
def mapc2 (data : List (List ℚ)) (ci cj : ℚ) : ℚ :=
  if ci < 0 ∨ (data.length : ℚ) - 1 < ci ∨
     cj < 0 ∨ ((data.getD 0 []).length : ℚ) - 1 < cj then 0
  else mapc1core (data.map (fun row => mapc1core row cj)) ci

/-- scipy.interpolate.interp1d(axis, np.arange(len(axis)), bounds_error=False)
    evaluated at v: the piecewise-linear map sending axis[i] to i, with the
    default fill_value NaN (modelled as none) outside [axis[0], axis[-1]]. -/
def interp1dIndex (axis : List ℚ) (v : ℚ) : Option ℚ :=
  if v < axis.getD 0 0 ∨ axis.getD (axis.length - 1) 0 < v then none
  else some (lin1 axis ((List.range axis.length).map (Nat.cast : ℕ → ℚ)) v)

/-! ### interpolate_vertsec (mss_util.py lines 223-249)

    curtain = np.zeros([data3D.shape[0], len(lats)])
    for ml in range(data3D.shape[0]):
        interpolator = RectBivariateSpline(data3D_lats, data3D_lons,
                                           data3D[ml], kx=1, ky=1)
        curtain[ml, :] = interpolator(lats, lons).diagonal()

    The constructor validates axis lengths (at least kx+1 = 2 points),
    strict monotonicity, and shape agreement with the data slice; it is only
    reached when there is at least one level.  The mesh evaluation has shape
    (len(lats), len(lons)); .diagonal() has length min of the two, and the
    row assignment needs length len(lats): fewer lons than lats raises a
    broadcast error, while extra lons are silently dropped. -/
def interpolate_vertsec (data3D : List (List (List ℚ)))
    (axla axlo lats lons : List ℚ) : Option (List (List ℚ)) :=
  if data3D.length = 0 then some []
  else if 2 ≤ axla.length ∧ 2 ≤ axlo.length ∧
          strictIncr axla = true ∧ strictIncr axlo = true ∧
          ∀ lvl ∈ data3D, gridShape lvl axla.length axlo.length then
    if lons.length < lats.length then none
    else some (data3D.map (fun data =>
      (List.range lats.length).map (fun i =>
        spline2At axla axlo data (lats.getD i 0) (lons.getD i 0))))
  else none

/-! ### interpolate_vertsec2 (mss_util.py lines 252-283)

    dlat = data3D_lats[1] - data3D_lats[0]   (IndexError if fewer than 2)
    dlon = data3D_lons[1] - data3D_lons[0]
    ind_lats = (lats - data3D_lats[0]) / dlat
    ind_lons = (lons - data3D_lons[0]) / dlon
    ind_coords = np.array([ind_lats, ind_lons])  (error if lengths differ)
    for ml: curtain[ml, :] = map_coordinates(data3D[ml], ind_coords, order=1)

    Zero axis spacing would divide by zero and push non-finite indices into
    map_coordinates; that cascade is outside the modelled domain and is
    mapped to none here.  No check relates axis lengths to the data shape. -/
def interpolate_vertsec2 (data3D : List (List (List ℚ)))
    (axla axlo lats lons : List ℚ) : Option (List (List ℚ)) :=
  if axla.length < 2 ∨ axlo.length < 2 then none
  else if lats.length ≠ lons.length then none
  else if axla.getD 1 0 - axla.getD 0 0 = 0 ∨ axlo.getD 1 0 - axlo.getD 0 0 = 0
    then none
  else some (data3D.map (fun data =>
    (List.range lats.length).map (fun i =>
      mapc2 data
        ((lats.getD i 0 - axla.getD 0 0) / (axla.getD 1 0 - axla.getD 0 0))
        ((lons.getD i 0 - axlo.getD 0 0) / (axlo.getD 1 0 - axlo.getD 0 0)))))

/-! ### interpolate_vertsec3 (mss_util.py lines 286-315)

    interp_lat = interp1d(data3D_lats, np.arange(len(data3D_lats)),
                          bounds_error=False)       (needs at least 2 points)
    ind_lats = interp_lat(lats); same for lons
    ind_coords = np.array([ind_lats, ind_lons])     (error if lengths differ)
    for ml: curtain[ml, :] = map_coordinates(data3D[ml], ind_coords, order=1)
    curtain[:, np.isnan(ind_lats) | np.isnan(ind_lons)] = np.nan
    return np.ma.masked_invalid(curtain)

    Each output element is an Option: none exactly where the element of the
    returned masked array is masked.  Data values are rationals, so the only
    non-finite (masked) results come from the NaN index lookups, matching
    the finite-data reading of np.ma.masked_invalid. -/
def interpolate_vertsec3 (data3D : List (List (List ℚ)))
    (axla axlo lats lons : List ℚ) : Option (List (List (Option ℚ))) :=
  if axla.length < 2 ∨ axlo.length < 2 then none
  else if lats.length ≠ lons.length then none
  else some (data3D.map (fun data =>
    (List.range lats.length).map (fun i =>
      match interp1dIndex axla (lats.getD i 0),
            interp1dIndex axlo (lons.getD i 0) with
      | some ci, some cj => some (mapc2 data ci cj)
      | _, _ => none)))

/-! ### read_nasa_satellite_prediction (mss_util.py lines 320-388)

    A data line (satlines[2:]) is modelled in parsed form: values[0] is the
    time-of-day, combined with the date from line 1 into an absolute
    timestamp (here: integer seconds); values[1:] are the numeric fields.
    Records whose time string or numeric fields fail to parse abort the call
    and are outside the modelled record type. -/
structure SatRecord where
  time : ℤ
  fields : List ℚ
  deriving DecidableEq, Repr

/-- The growable per-segment accumulation buffers (the segment dict of
    lists while the scan is running). -/
structure Segment where
  utc : List ℤ
  satpos : List (ℚ × ℚ)
  heading : List ℚ
  swath_left : List (ℚ × ℚ)
  swath_right : List (ℚ × ℚ)
  deriving DecidableEq, Repr

/-- A finalized segment: np.ma.masked_equal(buffer, -999.) has been applied
    to every field except utc, masking (none) each entry equal to -999. -/
structure MaskedSegment where
  utc : List ℤ
  satpos : List (Option ℚ × Option ℚ)
  heading : List (Option ℚ)
  swath_left : List (Option ℚ × Option ℚ)
  swath_right : List (Option ℚ × Option ℚ)
  deriving DecidableEq, Repr

/-- The fresh segment dict of empty lists. -/
def emptySegment : Segment :=
  { utc := [], satpos := [], heading := [], swath_left := [], swath_right := [] }

/-- np.ma.masked_equal applied to one stored value: -999 becomes masked. -/
def maskVal (v : ℚ) : Option ℚ := if v = -999 then none else some v

/-- Finalization of a segment before it is appended to the result list:
    segment["utc"] = np.array(segment["utc"]) and masked_equal(..., -999.)
    elementwise on the four numeric fields. -/
def finalizeSegment (s : Segment) : MaskedSegment :=
  { utc := s.utc
    satpos := s.satpos.map (fun p => (maskVal p.1, maskVal p.2))
    heading := s.heading.map maskVal
    swath_left := s.swath_left.map (fun p => (maskVal p.1, maskVal p.2))
    swath_right := s.swath_right.map (fun p => (maskVal p.1, maskVal p.2)) }

/-- The append branch of the loop body: values[1] = fields[0] (latitude),
    values[2] = fields[1] (longitude, sign-inverted when stored),
    values[3] = fields[2] (heading); when the line has 8 columns
    (fields.length = 7) the swath boundaries come from values[4..7],
    otherwise both default to the satellite position itself. -/
def appendRecord (s : Segment) (r : SatRecord) : Segment :=
  { utc := s.utc ++ [r.time]
    satpos := s.satpos ++ [(-1 * r.fields.getD 1 0, r.fields.getD 0 0)]
    heading := s.heading ++ [r.fields.getD 2 0]
    swath_left :=
      if r.fields.length = 7 then
        s.swath_left ++ [(-1 * r.fields.getD 4 0, r.fields.getD 3 0)]
      else
        s.swath_left ++ [(-1 * r.fields.getD 1 0, r.fields.getD 0 0)]
    swath_right :=
      if r.fields.length = 7 then
        s.swath_right ++ [(-1 * r.fields.getD 6 0, r.fields.getD 5 0)]
      else
        s.swath_right ++ [(-1 * r.fields.getD 1 0, r.fields.getD 0 0)] }

/-- seg_diff_time = datetime.timedelta(minutes=10), in seconds. -/
def segDiffTime : ℤ := 600

/-- One iteration of the scan loop.  When the current segment is empty or
    the delta to its last utc entry is strictly below the threshold, the
    record is appended; otherwise the current segment is finalized and the
    accumulator is reset to a fresh empty segment.  Note that in the second
    branch the triggering record itself is not stored anywhere. -/
def processLine (acc : List MaskedSegment × Segment) (r : SatRecord) :
    List MaskedSegment × Segment :=
  let result := acc.1
  let segment := acc.2
  if segment.utc.length = 0 ∨ r.time - segment.utc.getLastD 0 < segDiffTime then
    (result, appendRecord segment r)
  else
    (result ++ [finalizeSegment segment], emptySegment)

/-- The whole scan over the data lines: the pair of the emitted result list
    and the segment still being accumulated when the input ends. -/
def satSegmentationState (records : List SatRecord) :
    List MaskedSegment × Segment :=
  records.foldl processLine ([], emptySegment)

/-- Embedding of read_nasa_satellite_prediction on parsed records: a record
    with fewer than 3 numeric fields raises an IndexError at values[3]
    (none); otherwise the function returns exactly the emitted list of the
    scan, never finalizing the trailing accumulated segment. -/
def read_nasa_satellite_prediction (records : List SatRecord) :
    Option (List MaskedSegment) :=
  if ∀ r ∈ records, 3 ≤ r.fields.length then
    some (satSegmentationState records).1
  else none

/-! ### General helper lemmas -/

/-- getD through map, at an in-range index. -/
lemma getD_map_lt {α β : Type} (g : α → β) (l : List α) (i : ℕ)
    (h : i < l.length) (d : α) (d' : β) :
    (l.map g).getD i d' = g (l.getD i d) := by
  rw [List.getD_eq_getElem l d h, List.getD_eq_getElem (l.map g) d' (by simpa),
    List.getElem_map]

/-- getD through a mapped range, at an in-range index. -/
lemma getD_range_map {β : Type} (g : ℕ → β) (n i : ℕ) (h : i < n) (d' : β) :
    ((List.range n).map g).getD i d' = g i := by
  rw [List.getD_eq_getElem _ d' (by simpa), List.getElem_map]
  congr 1
  simp

/-- getD at an in-range index is a member of the list. -/
lemma getD_mem {α : Type} (l : List α) (i : ℕ) (h : i < l.length) (d : α) :
    l.getD i d ∈ l := by
  rw [List.getD_eq_getElem l d h]
  exact List.getElem_mem h

/-! ### Monotone axis lemmas -/

/-- Unfolding of the strictly-increasing check on a two-or-more list. -/
lemma strictIncr_cons_cons (a b : ℚ) (rest : List ℚ) :
    strictIncr (a :: b :: rest) = true ↔
      a < b ∧ strictIncr (b :: rest) = true := by
  simp [strictIncr]

/-- The head of a strictly increasing list bounds every entry from below. -/
lemma strictIncr_head_le : ∀ (l : List ℚ), strictIncr l = true →
    ∀ k, k < l.length → l.getD 0 0 ≤ l.getD k 0 := by
  intro l
  induction l with
  | nil => intro _ k hk; simp at hk
  | cons a l ih =>
    intro hs k hk
    cases k with
    | zero => exact le_refl _
    | succ k =>
      cases l with
      | nil => simp at hk
      | cons b rest =>
        obtain ⟨hab, hs'⟩ := (strictIncr_cons_cons a b rest).mp hs
        show a ≤ (b :: rest).getD k 0
        have hbk := ih hs' k (by simpa using hk)
        have hb : (b :: rest).getD 0 0 = b := rfl
        rw [hb] at hbk
        linarith

/-- Entries of a strictly increasing list are strictly ordered by index. -/
lemma strictIncr_getD_lt : ∀ (l : List ℚ), strictIncr l = true →
    ∀ i k : ℕ, i < k → k < l.length → l.getD i 0 < l.getD k 0 := by
  intro l
  induction l with
  | nil => intro _ i k _ hk; simp at hk
  | cons a l ih =>
    intro hs i k hik hk
    cases k with
    | zero => omega
    | succ k =>
      cases l with
      | nil => simp at hk
      | cons b rest =>
        obtain ⟨hab, hs'⟩ := (strictIncr_cons_cons a b rest).mp hs
        cases i with
        | zero =>
          show a < (b :: rest).getD k 0
          have hbk := strictIncr_head_le (b :: rest) hs' k (by simpa using hk)
          have hb : (b :: rest).getD 0 0 = b := rfl
          rw [hb] at hbk
          linarith
        | succ i =>
          exact ih hs' i k (by omega) (by simpa using hk)

/-- Entries of a strictly increasing list are weakly ordered by index. -/
lemma strictIncr_getD_le (l : List ℚ) (h : strictIncr l = true) (i k : ℕ)
    (hik : i ≤ k) (hk : k < l.length) : l.getD i 0 ≤ l.getD k 0 := by
  rcases eq_or_lt_of_le hik with rfl | hlt
  · exact le_refl _
  · exact le_of_lt (strictIncr_getD_lt l h i k hlt hk)

/-- A uniformly spaced axis with positive spacing passes the
    strictly-increasing check. -/
lemma strictIncr_of_uniform (d : ℚ) (hd : 0 < d) :
    ∀ axis : List ℚ,
      (∀ i, i < axis.length → axis.getD i 0 = axis.getD 0 0 + i * d) →
      strictIncr axis = true := by
  intro axis
  induction axis with
  | nil => intro _; rfl
  | cons a l ih =>
    intro h
    cases l with
    | nil => rfl
    | cons b rest =>
      rw [strictIncr_cons_cons]
      have hb : b = a + d := by
        have := h 1 (by simp)
        simpa using this
      refine ⟨by linarith, ih ?_⟩
      intro i hi
      have h1 := h (i + 1) (by simpa using Nat.succ_lt_succ hi)
      have h2 : ((b :: rest).getD i 0) = a + ((i : ℚ) + 1) * d := by
        push_cast at h1
        simpa using h1
      have h3 : ((b :: rest).getD 0 0) = b := rfl
      rw [h2, h3, hb]
      ring

/-! ### Node evaluation lemmas -/

/-- A degree-1 spline evaluated exactly at knot j returns the knot value. -/
lemma lin1_node : ∀ (axis f : List ℚ) (j : ℕ),
    strictIncr axis = true → f.length = axis.length → 2 ≤ axis.length →
    j < axis.length → lin1 axis f (axis.getD j 0) = f.getD j 0 := by
  intro axis
  induction axis with
  | nil => intro f j _ _ h2 _; simp at h2
  | cons a l ih =>
    intro f j hs hlen h2 hj
    cases l with
    | nil => simp at h2
    | cons b rest =>
      obtain ⟨hab, hs'⟩ := (strictIncr_cons_cons a b rest).mp hs
      obtain ⟨fa, f', rfl⟩ : ∃ fa f', f = fa :: f' := by
        cases f with
        | nil => simp at hlen
        | cons fa f' => exact ⟨fa, f', rfl⟩
      obtain ⟨fb, frest, rfl⟩ : ∃ fb frest, f' = fb :: frest := by
        cases f' with
        | nil => simp at hlen
        | cons fb frest => exact ⟨fb, frest, rfl⟩
      cases j with
      | zero =>
        show lin1 (a :: b :: rest) (fa :: fb :: frest) a = fa
        rw [lin1, if_pos (Or.inl hab), sub_self, zero_mul, zero_div, add_zero]
      | succ j =>
        cases rest with
        | nil =>
          have hj0 : j = 0 := by
            have := hj
            simp at this
            omega
          subst hj0
          show lin1 [a, b] (fa :: fb :: frest) b = (fa :: fb :: frest).getD 1 0
          rw [lin1, if_pos (Or.inr rfl)]
          have hba : b - a ≠ 0 := sub_ne_zero.mpr (ne_of_lt hab).symm
          rw [mul_comm, mul_div_assoc, div_self hba, mul_one]
          show fa + (fb - fa) = fb
          ring
        | cons c rest' =>
          have hmono : b ≤ (b :: c :: rest').getD j 0 := by
            have := strictIncr_head_le (b :: c :: rest') hs' j
              (by have := hj; simp at this ⊢; omega)
            simpa using this
          show lin1 (a :: b :: c :: rest') (fa :: fb :: frest)
              ((b :: c :: rest').getD j 0) = (fb :: frest).getD j 0
          rw [lin1, if_neg (by push_neg; exact ⟨hmono, by simp⟩)]
          exact ih (fb :: frest) j hs' (by simpa using hlen)
            (by show 2 ≤ rest'.length + 1 + 1; omega)
            (by have := hj; simp at this ⊢; omega)

/-- Index-space linear interpolation at an exact integer index returns the
    stored value. -/
lemma mapc1core_natCast (f : List ℚ) (j : ℕ) : mapc1core f (j : ℚ) = f.getD j 0 := by
  unfold mapc1core
  rw [Int.floor_natCast]
  simp

/-- map_coordinates at exact integer coordinates returns the stored grid
    value. -/
lemma mapc2_natCast (data : List (List ℚ)) (j k nr nc : ℕ)
    (hshape : gridShape data nr nc) (hj : j < nr) (hk : k < nc) :
    mapc2 data (j : ℚ) (k : ℚ) = (data.getD j []).getD k 0 := by
  obtain ⟨hlen, hrows⟩ := hshape
  have hjlen : j < data.length := by omega
  have hnc : (data.getD 0 []).length = nc :=
    hrows _ (getD_mem data 0 (by omega) [])
  unfold mapc2
  rw [if_neg]
  · rw [mapc1core_natCast, getD_map_lt _ data j hjlen [] (0 : ℚ), mapc1core_natCast]
  · push_neg
    have c1 : ((j : ℚ)) + 1 ≤ (nr : ℚ) := by exact_mod_cast hj
    have c2 : ((k : ℚ)) + 1 ≤ (nc : ℚ) := by exact_mod_cast hk
    refine ⟨by positivity, ?_, by positivity, ?_⟩
    · rw [hlen]; linarith
    · rw [hnc]; linarith

/-- The interp1d index lookup at an exact node value returns the exact
    integer index. -/
lemma interp1dIndex_node (axis : List ℚ) (j : ℕ) (hs : strictIncr axis = true)
    (h2 : 2 ≤ axis.length) (hj : j < axis.length) :
    interp1dIndex axis (axis.getD j 0) = some (j : ℚ) := by
  unfold interp1dIndex
  rw [if_neg]
  · rw [lin1_node axis _ j hs (by rw [List.length_map, List.length_range]) h2 hj,
      getD_range_map _ _ _ hj]
  · push_neg
    exact ⟨strictIncr_getD_le axis hs 0 j (Nat.zero_le j) hj,
      strictIncr_getD_le axis hs j (axis.length - 1) (by omega) (by omega)⟩

/-! ### fix_angle range (claim C9) -/

/-- The first while loop exits only with a value at most 360. -/
lemma fixAngleSub_le_360 (a : ℚ) : fixAngleSub a ≤ 360 := by
  induction a using fixAngleSub.induct with
  | case1 a h ih => rw [fixAngleSub]; simpa [h] using ih
  | case2 a h => rw [fixAngleSub]; simp [h]; exact not_lt.mp h

/-- The second while loop exits only with a nonnegative value. -/
lemma fixAngleAdd_nonneg (a : ℚ) : 0 ≤ fixAngleAdd a := by
  induction a using fixAngleAdd.induct with
  | case1 a h ih => rw [fixAngleAdd]; simpa [h] using ih
  | case2 a h => rw [fixAngleAdd]; simp [h]; exact not_lt.mp h

/-- The second while loop keeps its argument below 360 once it is. -/
lemma fixAngleAdd_le_360 : ∀ a : ℚ, a ≤ 360 → fixAngleAdd a ≤ 360 := by
  intro a
  induction a using fixAngleAdd.induct with
  | case1 a h ih =>
    intro _
    rw [fixAngleAdd]; simp [h]; exact ih (by linarith)
  | case2 a h =>
    intro ha
    rw [fixAngleAdd]; simp [h]; exact ha

/-- C9 counterexample: at input 360, fix_angle returns exactly 360, which is
    not in the half-open interval [0, 360) asserted by the claim. -/
theorem C9_fix_angle_360_not_halfopen :
    fix_angle (360 : ℚ) = 360 ∧ ¬ fix_angle (360 : ℚ) < 360 := by
  have h : fix_angle (360 : ℚ) = 360 := by
    have h1 : fixAngleSub (360 : ℚ) = 360 := by rw [fixAngleSub]; norm_num
    have h2 : fixAngleAdd (360 : ℚ) = 360 := by rw [fixAngleAdd]; norm_num
    rw [fix_angle, h1, h2]
  exact ⟨h, by rw [h]; exact lt_irrefl 360⟩

/-- C9 amended: for every rational input angle, fix_angle returns a value in
    the closed interval [0, 360]; the endpoint 360 itself is attainable, so
    the implemented range is [0, 360], not [0, 360) and not [-180, 180]. -/
theorem C9_fix_angle_range (a : ℚ) : 0 ≤ fix_angle a ∧ fix_angle a ≤ 360 :=
  ⟨fixAngleAdd_nonneg _, fixAngleAdd_le_360 _ (fixAngleSub_le_360 a)⟩

/-! ### TrackSegmenter claims (C1, C2, C3, C7) -/

/-- C1: evaluation of read_nasa_satellite_prediction at the failing input.
    Two records 20 minutes apart: the gap finalizes the first segment, but
    the record that triggered the gap (time 37200) is discarded — it appears
    in no segment of the output, contradicting the claim that the new
    segment starts containing exactly that boundary record. -/
theorem C1_gap_record_dropped :
    read_nasa_satellite_prediction [⟨36000, [7, 8, 9]⟩, ⟨37200, [1, 2, 3]⟩] =
      some [{ utc := [36000], satpos := [(some (-8), some 7)],
              heading := [some 9], swath_left := [(some (-8), some 7)],
              swath_right := [(some (-8), some 7)] }] := by
  norm_num [read_nasa_satellite_prediction, satSegmentationState, processLine,
    appendRecord, emptySegment, finalizeSegment, maskVal, segDiffTime]

/-- C2: evaluation at the spec scenario 10:00:00, 10:05:00, 10:20:00
    (36000 s, 36300 s, 37200 s).  The code returns exactly ONE segment,
    holding the first two records; the third record is discarded and no
    second segment is ever emitted, contradicting the claimed two-segment
    result and the claimed finalization of the trailing segment. -/
theorem C2_trailing_segment_not_emitted :
    read_nasa_satellite_prediction
        [⟨36000, [7, 8, 9]⟩, ⟨36300, [1, 2, 3]⟩, ⟨37200, [4, 5, 6]⟩] =
      some [{ utc := [36000, 36300],
              satpos := [(some (-8), some 7), (some (-2), some 1)],
              heading := [some 9, some 3],
              swath_left := [(some (-8), some 7), (some (-2), some 1)],
              swath_right := [(some (-8), some 7), (some (-2), some 1)] }] := by
  norm_num [read_nasa_satellite_prediction, satSegmentationState, processLine,
    appendRecord, emptySegment, finalizeSegment, maskVal, segDiffTime]

/-- C3 counterexample: two records exactly 10 minutes (600 s) apart.  The
    scan finalizes the first segment containing only the first record and
    leaves the accumulator empty: the two records do NOT remain in the same
    segment, refuting the claimed exclusive boundary. -/
theorem C3_exact_ten_minutes_splits :
    satSegmentationState [⟨36000, [1, 2, 3]⟩, ⟨36600, [4, 5, 6]⟩] =
      ([{ utc := [36000], satpos := [(some (-2), some 1)], heading := [some 3],
          swath_left := [(some (-2), some 1)],
          swath_right := [(some (-2), some 1)] }],
       emptySegment) := by
  norm_num [read_nasa_satellite_prediction, satSegmentationState, processLine,
    appendRecord, emptySegment, finalizeSegment, maskVal, segDiffTime]

/-- C3 amended: the append condition is a strict delta < 10 min comparison,
    so two consecutive records exactly 10 minutes apart (and a fortiori
    10 minutes + 1 second apart) trigger finalization and end up in
    different segments (the second record being dropped by this code), while
    any delta strictly below 10 minutes keeps both records in the same
    accumulated segment. -/
theorem C3_boundary_is_inclusive (r1 r2 : SatRecord) :
    (segDiffTime ≤ r2.time - r1.time →
      satSegmentationState [r1, r2] =
        ([finalizeSegment (appendRecord emptySegment r1)], emptySegment)) ∧
    (r2.time - r1.time < segDiffTime →
      satSegmentationState [r1, r2] =
        ([], appendRecord (appendRecord emptySegment r1) r2)) := by
  have hstate : satSegmentationState [r1, r2] =
      processLine (processLine ([], emptySegment) r1) r2 := rfl
  have h1 : processLine ([], emptySegment) r1 = ([], appendRecord emptySegment r1) := by
    simp [processLine, emptySegment]
  have hutc : (appendRecord emptySegment r1).utc = [r1.time] := by
    simp [appendRecord, emptySegment]
  constructor
  · intro h
    rw [hstate, h1, processLine]
    rw [if_neg]
    simp [hutc]
    push_neg
    refine ⟨by simp [hutc], ?_⟩
    rw [hutc]
    simpa using h
  · intro h
    rw [hstate, h1, processLine]
    rw [if_pos]
    right
    rw [hutc]
    simpa using h

/-- C7: evaluation at the failing input.  A record whose source longitude
    field is the sentinel -999 is stored sign-inverted as +999 before
    np.ma.masked_equal(..., -999.) runs, so the output contains the
    unmasked value 999 where the claim requires a masked entry. -/
theorem C7_lon_sentinel_escapes_mask :
    read_nasa_satellite_prediction [⟨36000, [5, -999, 90]⟩, ⟨37200, [0, 0, 0]⟩] =
      some [{ utc := [36000], satpos := [(some 999, some 5)],
              heading := [some 90], swath_left := [(some 999, some 5)],
              swath_right := [(some 999, some 5)] }] := by
  norm_num [read_nasa_satellite_prediction, satSegmentationState, processLine,
    appendRecord, emptySegment, finalizeSegment, maskVal, segDiffTime]

/-! ### Interpolator claims (C4, C5, C6, C8, C10) -/

/-- The bilinear spline evaluated exactly at a grid node returns the stored
    grid value. -/
lemma spline2At_node (axla axlo : List ℚ) (data : List (List ℚ)) (j k : ℕ)
    (hsa : strictIncr axla = true) (hso : strictIncr axlo = true)
    (h2a : 2 ≤ axla.length) (h2o : 2 ≤ axlo.length)
    (hshape : gridShape data axla.length axlo.length)
    (hj : j < axla.length) (hk : k < axlo.length) :
    spline2At axla axlo data (axla.getD j 0) (axlo.getD k 0) =
      (data.getD j []).getD k 0 := by
  unfold spline2At
  rw [lin1_node axla _ j hsa (by rw [List.length_map]; exact hshape.1) h2a hj]
  rw [getD_map_lt _ data j (by rw [hshape.1]; exact hj) [] (0 : ℚ)]
  exact lin1_node axlo _ k hso
    (hshape.2 _ (getD_mem data j (by rw [hshape.1]; exact hj) []))
    h2o hk

/-- C5: on a grid satisfying all three interpolators' axis preconditions
    (uniform spacing with positive steps, hence strictly increasing and
    monotonic), a query position that coincides exactly with grid node (j,k)
    receives, from interpolate_vertsec, interpolate_vertsec2 and
    interpolate_vertsec3 alike, exactly the stored grid value
    data3D[ml][j][k] at every level ml, and all three calls succeed. -/
theorem C5_node_query (data3D : List (List (List ℚ)))
    (axla axlo lats lons : List ℚ) (dlat dlon : ℚ) (j k i ml : ℕ)
    (hdlat : 0 < dlat) (hdlon : 0 < dlon)
    (h2a : 2 ≤ axla.length) (h2o : 2 ≤ axlo.length)
    (hua : ∀ t, t < axla.length → axla.getD t 0 = axla.getD 0 0 + t * dlat)
    (huo : ∀ t, t < axlo.length → axlo.getD t 0 = axlo.getD 0 0 + t * dlon)
    (hshape : ∀ lvl ∈ data3D, gridShape lvl axla.length axlo.length)
    (hql : lats.length = lons.length)
    (hj : j < axla.length) (hk : k < axlo.length)
    (hi : i < lats.length) (hml : ml < data3D.length)
    (hla : lats.getD i 0 = axla.getD j 0)
    (hlo : lons.getD i 0 = axlo.getD k 0) :
    (interpolate_vertsec data3D axla axlo lats lons).isSome = true ∧
    (interpolate_vertsec2 data3D axla axlo lats lons).isSome = true ∧
    (interpolate_vertsec3 data3D axla axlo lats lons).isSome = true ∧
    (((interpolate_vertsec data3D axla axlo lats lons).getD []).getD ml []).getD i 0
      = ((data3D.getD ml []).getD j []).getD k 0 ∧
    (((interpolate_vertsec2 data3D axla axlo lats lons).getD []).getD ml []).getD i 0
      = ((data3D.getD ml []).getD j []).getD k 0 ∧
    (((interpolate_vertsec3 data3D axla axlo lats lons).getD []).getD ml []).getD i none
      = some (((data3D.getD ml []).getD j []).getD k 0) := by
  have hsa : strictIncr axla = true := strictIncr_of_uniform dlat hdlat axla hua
  have hso : strictIncr axlo = true := strictIncr_of_uniform dlon hdlon axlo huo
  have hlvl : gridShape (data3D.getD ml []) axla.length axlo.length :=
    hshape _ (getD_mem data3D ml hml [])
  have hda : axla.getD 1 0 - axla.getD 0 0 = dlat := by
    have := hua 1 (by omega)
    rw [this]; push_cast; ring
  have hdo : axlo.getD 1 0 - axlo.getD 0 0 = dlon := by
    have := huo 1 (by omega)
    rw [this]; push_cast; ring
  -- evaluation of interpolate_vertsec
  have h1 : interpolate_vertsec data3D axla axlo lats lons =
      some (data3D.map (fun data =>
        (List.range lats.length).map (fun i =>
          spline2At axla axlo data (lats.getD i 0) (lons.getD i 0)))) := by
    unfold interpolate_vertsec
    rw [if_neg (by omega), if_pos ⟨h2a, h2o, hsa, hso, hshape⟩, if_neg (by omega)]
  -- evaluation of interpolate_vertsec2
  have h2 : interpolate_vertsec2 data3D axla axlo lats lons =
      some (data3D.map (fun data =>
        (List.range lats.length).map (fun i =>
          mapc2 data
            ((lats.getD i 0 - axla.getD 0 0) / (axla.getD 1 0 - axla.getD 0 0))
            ((lons.getD i 0 - axlo.getD 0 0) / (axlo.getD 1 0 - axlo.getD 0 0))))) := by
    unfold interpolate_vertsec2
    rw [if_neg (by omega), if_neg (by omega), if_neg]
    rw [hda, hdo]
    push_neg
    exact ⟨ne_of_gt hdlat, ne_of_gt hdlon⟩
  -- evaluation of interpolate_vertsec3
  have h3 : interpolate_vertsec3 data3D axla axlo lats lons =
      some (data3D.map (fun data =>
        (List.range lats.length).map (fun i =>
          match interp1dIndex axla (lats.getD i 0),
                interp1dIndex axlo (lons.getD i 0) with
          | some ci, some cj => some (mapc2 data ci cj)
          | _, _ => none))) := by
    unfold interpolate_vertsec3
    rw [if_neg (by omega), if_neg (by omega)]
  -- the index-space coordinates at the node are the exact integer indices
  have hci : (lats.getD i 0 - axla.getD 0 0) / (axla.getD 1 0 - axla.getD 0 0)
      = (j : ℚ) := by
    rw [hda, hla, hua j hj]
    field_simp
  have hcj : (lons.getD i 0 - axlo.getD 0 0) / (axlo.getD 1 0 - axlo.getD 0 0)
      = (k : ℚ) := by
    rw [hdo, hlo, huo k hk]
    field_simp
  refine ⟨by rw [h1]; rfl, by rw [h2]; rfl, by rw [h3]; rfl, ?_, ?_, ?_⟩
  · rw [h1, Option.getD_some,
      getD_map_lt _ data3D ml hml [] ([] : List ℚ),
      getD_range_map _ _ _ hi, hla, hlo]
    exact spline2At_node axla axlo _ j k hsa hso h2a h2o hlvl hj hk
  · rw [h2, Option.getD_some,
      getD_map_lt _ data3D ml hml [] ([] : List ℚ),
      getD_range_map _ _ _ hi, hci, hcj]
    exact mapc2_natCast _ j k axla.length axlo.length hlvl hj hk
  · rw [h3, Option.getD_some,
      getD_map_lt _ data3D ml hml [] ([] : List (Option ℚ)),
      getD_range_map _ _ _ hi, hla, hlo,
      interp1dIndex_node axla j hsa h2a hj, interp1dIndex_node axlo k hso h2o hk]
    exact congrArg some (mapc2_natCast _ j k axla.length axlo.length hlvl hj hk)

/-- C5, witnessed at the spec scenario: lats = lons = [0,1,2],
    data3D = [[[0,1,2],[1,2,3],[2,3,4]]], query position (1,1): all three
    interpolators return the stored node value 2. -/
theorem C5_node_query_witness :
    (((interpolate_vertsec [[[0,1,2],[1,2,3],[2,3,4]]] [0,1,2] [0,1,2] [1] [1]).getD
      []).getD 0 []).getD 0 0 = 2 ∧
    (((interpolate_vertsec2 [[[0,1,2],[1,2,3],[2,3,4]]] [0,1,2] [0,1,2] [1] [1]).getD
      []).getD 0 []).getD 0 0 = 2 ∧
    (((interpolate_vertsec3 [[[0,1,2],[1,2,3],[2,3,4]]] [0,1,2] [0,1,2] [1] [1]).getD
      []).getD 0 []).getD 0 none = some 2 := by
  have h := C5_node_query [[[0,1,2],[1,2,3],[2,3,4]]] [0,1,2] [0,1,2] [1] [1]
    1 1 1 1 0 0 (by norm_num) (by norm_num) (by norm_num) (by norm_num)
    (by intro t ht
        have ht3 : t < 3 := by simpa using ht
        interval_cases t <;> norm_num)
    (by intro t ht
        have ht3 : t < 3 := by simpa using ht
        interval_cases t <;> norm_num)
    (by intro lvl hl; simp only [List.mem_singleton] at hl; subst hl
        exact ⟨by norm_num, by intro row hr; fin_cases hr <;> norm_num⟩)
    (by norm_num) (by norm_num) (by norm_num) (by norm_num) (by norm_num)
    (by norm_num) (by norm_num)
  obtain ⟨-, -, -, v1, v2, v3⟩ := h
  have hval : (([[[(0:ℚ),1,2],[1,2,3],[2,3,4]]].getD 0 []).getD 1 []).getD 1 0 = 2 := by
    norm_num
  rw [hval] at v1 v2 v3
  exact ⟨v1, v2, v3⟩

/-- Shifting an index-space linear interpolation past the head of the value
    list. -/
lemma mapc1core_shift (f0 : ℚ) (f : List ℚ) (x : ℚ) (hx : 1 ≤ x) :
    mapc1core (f0 :: f) x = mapc1core f (x - 1) := by
  unfold mapc1core
  have h1 : (1 : ℤ) ≤ Int.floor x := by
    rw [Int.le_floor]; exact_mod_cast hx
  have h2 : Int.floor (x - 1) = Int.floor x - 1 := Int.floor_sub_one x
  obtain ⟨m, hm⟩ : ∃ m : ℕ, (Int.floor x).toNat = m + 1 :=
    ⟨(Int.floor x).toNat - 1, by omega⟩
  have h3 : (Int.floor x - 1).toNat = m := by omega
  rw [h2, h3, hm]
  have h4 : ((Int.floor x - 1 : ℤ) : ℚ) = (Int.floor x : ℚ) - 1 := by
    push_cast; ring
  rw [h4]
  have h5 : (f0 :: f).getD (m + 1) 0 = f.getD m 0 := rfl
  have h6 : (f0 :: f).getD (m + 1 + 1) 0 = f.getD (m + 1) 0 := rfl
  rw [h5, h6]
  ring

/-- Workhorse for C6: on a uniformly spaced strictly increasing axis and an
    in-range argument, the degree-1 spline value equals index-space linear
    interpolation at the fractional index (v - axis[0]) / d. -/
lemma lin1_uniform (d : ℚ) (hd : 0 < d) :
    ∀ (axis f : List ℚ) (v : ℚ),
      2 ≤ axis.length → f.length = axis.length →
      (∀ t, t < axis.length → axis.getD t 0 = axis.getD 0 0 + t * d) →
      axis.getD 0 0 ≤ v →
      v ≤ axis.getD 0 0 + ((axis.length - 1 : ℕ) : ℚ) * d →
      lin1 axis f v = mapc1core f ((v - axis.getD 0 0) / d) := by
  intro axis
  induction axis with
  | nil => intro f v h2 _ _ _ _; simp at h2
  | cons a l ih =>
    intro f v h2 hflen hunif hlo hhi
    cases l with
    | nil => simp at h2
    | cons b rest =>
      obtain ⟨fa, f', rfl⟩ : ∃ fa f', f = fa :: f' := by
        cases f with
        | nil => simp at hflen
        | cons fa f' => exact ⟨fa, f', rfl⟩
      obtain ⟨fb, frest, rfl⟩ : ∃ fb frest, f' = fb :: frest := by
        cases f' with
        | nil => simp at hflen
        | cons fb frest => exact ⟨fb, frest, rfl⟩
      have hb : b = a + d := by
        have := hunif 1 (by simp)
        simpa using this
      have ha0 : (a :: b :: rest).getD 0 0 = a := rfl
      rw [ha0] at hlo hhi ⊢
      have hdne : d ≠ 0 := ne_of_gt hd
      by_cases hvb : v < b
      · -- the first knot segment handles v, and floor ((v-a)/d) = 0
        have hc0 : 0 ≤ (v - a) / d := div_nonneg (by linarith) hd.le
        have hc1 : (v - a) / d < 1 := by
          rw [div_lt_one hd]; linarith [hb]
        have hfl : Int.floor ((v - a) / d) = 0 :=
          Int.floor_eq_zero_iff.mpr (Set.mem_Ico.mpr ⟨hc0, hc1⟩)
        rw [lin1, if_pos (Or.inl hvb)]
        unfold mapc1core
        rw [hfl]
        have hba : b - a = d := by rw [hb]; ring
        rw [hba]
        show fa + (v - a) * (fb - fa) / d =
          (1 - ((v - a) / d - ((0 : ℤ) : ℚ))) * fa + ((v - a) / d - ((0 : ℤ) : ℚ)) * fb
        push_cast
        field_simp
        ring
      · cases rest with
        | nil =>
          -- axis = [a, b] and b ≤ v ≤ a + d = b, so v = b and the index is 1
          have hv : v = b := by
            have : v ≤ a + d := by
              have h1 : ((([a, b] : List ℚ).length - 1 : ℕ) : ℚ) = 1 := by norm_num
              rw [h1] at hhi; linarith
            have := not_lt.mp hvb
            linarith [hb]
          have hc : (v - a) / d = 1 := by
            rw [hv, hb]; field_simp
          rw [lin1, if_pos (Or.inr rfl), hc]
          unfold mapc1core
          rw [Int.floor_one]
          have hba : b - a = d := by rw [hb]; ring
          rw [hv, hba]
          show fa + d * (fb - fa) / d = (1 - (1 - ((1 : ℤ) : ℚ))) *
            ((fa :: fb :: frest).getD (Int.toNat 1) 0) +
            (1 - ((1 : ℤ) : ℚ)) * ((fa :: fb :: frest).getD (Int.toNat 1 + 1) 0)
          have hg : ((fa :: fb :: frest).getD (Int.toNat 1) 0) = fb := rfl
          rw [hg]
          push_cast
          field_simp
        | cons c' rest' =>
          -- recurse into the tail axis, then shift the index interpolation
          have hbv : b ≤ v := not_lt.mp hvb
          have hlen' : 2 ≤ (b :: c' :: rest').length := by
            show 2 ≤ rest'.length + 1 + 1; omega
          have hunif' : ∀ t, t < (b :: c' :: rest').length →
              (b :: c' :: rest').getD t 0 = (b :: c' :: rest').getD 0 0 + t * d := by
            intro t ht
            have h1 := hunif (t + 1) (by simpa using Nat.succ_lt_succ ht)
            have h2 : ((a :: b :: c' :: rest').getD (t + 1) 0) =
              (b :: c' :: rest').getD t 0 := rfl
            rw [h2] at h1
            rw [h1, ha0]
            show a + ((t + 1 : ℕ) : ℚ) * d = b + (t : ℚ) * d
            rw [hb]
            push_cast
            ring
          have hhi' : v ≤ (b :: c' :: rest').getD 0 0 +
              (((b :: c' :: rest').length - 1 : ℕ) : ℚ) * d := by
            have hg0 : (b :: c' :: rest').getD 0 0 = b := rfl
            rw [hg0]
            have hlen1 : (((a :: b :: c' :: rest').length - 1 : ℕ) : ℚ) =
                (((b :: c' :: rest').length - 1 : ℕ) : ℚ) + 1 := by
              show ((rest'.length + 3 - 1 : ℕ) : ℚ) = ((rest'.length + 2 - 1 : ℕ) : ℚ) + 1
              push_cast
              ring
            rw [hlen1] at hhi
            ring_nf at hhi ⊢
            have hb' : b = a + d := hb
            linarith
          have hrec := ih (fb :: frest) v hlen' (by simpa using hflen) hunif'
            ((show (b :: c' :: rest').getD 0 0 = b from rfl) ▸ hbv) hhi'
          rw [lin1, if_neg (by push_neg; exact ⟨hbv, by simp⟩)]
          rw [hrec]
          have hg0 : (b :: c' :: rest').getD 0 0 = b := rfl
          rw [hg0]
          have hx1 : 1 ≤ (v - a) / d := by
            rw [le_div_iff₀ hd]; linarith [hb]
          rw [mapc1core_shift fa (fb :: frest) ((v - a) / d) hx1]
          congr 1
          rw [hb]
          field_simp
          ring

/-- getD commutes with take below the cut. -/
lemma getD_take {α : Type} (l : List α) (n i : ℕ) (h : i < n) (d : α) :
    (l.take n).getD i d = l.getD i d := by
  by_cases hi : i < l.length
  · rw [List.getD_eq_getElem l d hi,
      List.getD_eq_getElem (l.take n) d (by simp [List.length_take]; omega)]
    exact List.getElem_take l
  · have h1 : l.length ≤ i := not_lt.mp hi
    have h2 : (l.take n).length ≤ i := by simp [List.length_take]; omega
    rw [List.getD_eq_default l d h1, List.getD_eq_default (l.take n) d h2]

/-- Per-position core of C6: on a uniform grid, the bilinear spline value
    equals the index-space map_coordinates value for in-range query points. -/
lemma spline2At_eq_mapc2 (axla axlo : List ℚ) (data : List (List ℚ))
    (la lo dlat dlon : ℚ)
    (hdlat : 0 < dlat) (hdlon : 0 < dlon)
    (h2a : 2 ≤ axla.length) (h2o : 2 ≤ axlo.length)
    (hua : ∀ t, t < axla.length → axla.getD t 0 = axla.getD 0 0 + t * dlat)
    (huo : ∀ t, t < axlo.length → axlo.getD t 0 = axlo.getD 0 0 + t * dlon)
    (hshape : gridShape data axla.length axlo.length)
    (hbla1 : axla.getD 0 0 ≤ la)
    (hbla2 : la ≤ axla.getD 0 0 + ((axla.length - 1 : ℕ) : ℚ) * dlat)
    (hblo1 : axlo.getD 0 0 ≤ lo)
    (hblo2 : lo ≤ axlo.getD 0 0 + ((axlo.length - 1 : ℕ) : ℚ) * dlon) :
    spline2At axla axlo data la lo =
      mapc2 data ((la - axla.getD 0 0) / dlat) ((lo - axlo.getD 0 0) / dlon) := by
  have hci0 : 0 ≤ (la - axla.getD 0 0) / dlat := div_nonneg (by linarith) hdlat.le
  have hcj0 : 0 ≤ (lo - axlo.getD 0 0) / dlon := div_nonneg (by linarith) hdlon.le
  have hciN : (la - axla.getD 0 0) / dlat ≤ ((axla.length - 1 : ℕ) : ℚ) := by
    rw [div_le_iff₀ hdlat]; linarith
  have hcjN : (lo - axlo.getD 0 0) / dlon ≤ ((axlo.length - 1 : ℕ) : ℚ) := by
    rw [div_le_iff₀ hdlon]; linarith
  have hnc : (data.getD 0 []).length = axlo.length :=
    hshape.2 _ (getD_mem data 0 (by omega) [])
  have hcast_la : ((axla.length : ℚ)) - 1 = ((axla.length - 1 : ℕ) : ℚ) := by
    have : 1 ≤ axla.length := by omega
    push_cast [this]
    ring
  have hcast_lo : ((axlo.length : ℚ)) - 1 = ((axlo.length - 1 : ℕ) : ℚ) := by
    have : 1 ≤ axlo.length := by omega
    push_cast [this]
    ring
  unfold mapc2
  rw [if_neg]
  · unfold spline2At
    rw [lin1_uniform dlat hdlat axla _ la h2a
      (by rw [List.length_map]; exact hshape.1) hua hbla1 hbla2]
    congr 1
    apply List.map_congr_left
    intro row hrow
    exact lin1_uniform dlon hdlon axlo row lo h2o (hshape.2 row hrow) huo
      hblo1 hblo2
  · push_neg
    refine ⟨hci0, ?_, hcj0, ?_⟩
    · rw [hshape.1, hcast_la]; exact hciN
    · rw [hnc, hcast_lo]; exact hcjN

/-- C6: on every uniformly spaced strictly increasing grid of matching
    shape, with paired query coordinates of equal length all lying inside
    the axis ranges, interpolate_vertsec (RectBivariateSpline based) and
    interpolate_vertsec2 (map_coordinates based) succeed and return exactly
    the same curtain (exact rational equality, the model of agreement
    within floating-point tolerance). -/
theorem C6_spline_agrees_with_index (data3D : List (List (List ℚ)))
    (axla axlo lats lons : List ℚ) (dlat dlon : ℚ)
    (hdlat : 0 < dlat) (hdlon : 0 < dlon)
    (h2a : 2 ≤ axla.length) (h2o : 2 ≤ axlo.length)
    (hua : ∀ t, t < axla.length → axla.getD t 0 = axla.getD 0 0 + t * dlat)
    (huo : ∀ t, t < axlo.length → axlo.getD t 0 = axlo.getD 0 0 + t * dlon)
    (hshape : ∀ lvl ∈ data3D, gridShape lvl axla.length axlo.length)
    (hql : lats.length = lons.length)
    (hbla : ∀ t, t < lats.length → axla.getD 0 0 ≤ lats.getD t 0 ∧
      lats.getD t 0 ≤ axla.getD (axla.length - 1) 0)
    (hblo : ∀ t, t < lats.length → axlo.getD 0 0 ≤ lons.getD t 0 ∧
      lons.getD t 0 ≤ axlo.getD (axlo.length - 1) 0) :
    interpolate_vertsec data3D axla axlo lats lons =
      interpolate_vertsec2 data3D axla axlo lats lons ∧
    (interpolate_vertsec2 data3D axla axlo lats lons).isSome = true := by
  have hsa : strictIncr axla = true := strictIncr_of_uniform dlat hdlat axla hua
  have hso : strictIncr axlo = true := strictIncr_of_uniform dlon hdlon axlo huo
  have hda : axla.getD 1 0 - axla.getD 0 0 = dlat := by
    have := hua 1 (by omega)
    rw [this]; push_cast; ring
  have hdo : axlo.getD 1 0 - axlo.getD 0 0 = dlon := by
    have := huo 1 (by omega)
    rw [this]; push_cast; ring
  have hlastla : axla.getD (axla.length - 1) 0 =
      axla.getD 0 0 + ((axla.length - 1 : ℕ) : ℚ) * dlat :=
    hua (axla.length - 1) (by omega)
  have hlastlo : axlo.getD (axlo.length - 1) 0 =
      axlo.getD 0 0 + ((axlo.length - 1 : ℕ) : ℚ) * dlon :=
    huo (axlo.length - 1) (by omega)
  have h2 : interpolate_vertsec2 data3D axla axlo lats lons =
      some (data3D.map (fun data =>
        (List.range lats.length).map (fun i =>
          mapc2 data
            ((lats.getD i 0 - axla.getD 0 0) / (axla.getD 1 0 - axla.getD 0 0))
            ((lons.getD i 0 - axlo.getD 0 0) / (axlo.getD 1 0 - axlo.getD 0 0))))) := by
    unfold interpolate_vertsec2
    rw [if_neg (by omega), if_neg (by omega), if_neg]
    rw [hda, hdo]
    push_neg
    exact ⟨ne_of_gt hdlat, ne_of_gt hdlon⟩
  have hmapeq : ∀ data ∈ data3D,
      (List.range lats.length).map (fun i =>
        spline2At axla axlo data (lats.getD i 0) (lons.getD i 0)) =
      (List.range lats.length).map (fun i =>
        mapc2 data
          ((lats.getD i 0 - axla.getD 0 0) / (axla.getD 1 0 - axla.getD 0 0))
          ((lons.getD i 0 - axlo.getD 0 0) / (axlo.getD 1 0 - axlo.getD 0 0))) := by
    intro data hdata
    apply List.map_congr_left
    intro t ht
    rw [List.mem_range] at ht
    rw [hda, hdo]
    exact spline2At_eq_mapc2 axla axlo data (lats.getD t 0) (lons.getD t 0)
      dlat dlon hdlat hdlon h2a h2o hua huo (hshape data hdata)
      (hbla t ht).1 (by rw [← hlastla]; exact (hbla t ht).2)
      (hblo t ht).1 (by rw [← hlastlo]; exact (hblo t ht).2)
  refine ⟨?_, by rw [h2]; rfl⟩
  by_cases hdd : data3D.length = 0
  · obtain rfl : data3D = [] := List.length_eq_zero.mp hdd
    rw [h2]
    rfl
  · have h1 : interpolate_vertsec data3D axla axlo lats lons =
        some (data3D.map (fun data =>
          (List.range lats.length).map (fun i =>
            spline2At axla axlo data (lats.getD i 0) (lons.getD i 0)))) := by
      unfold interpolate_vertsec
      rw [if_neg hdd, if_pos ⟨h2a, h2o, hsa, hso, hshape⟩, if_neg (by omega)]
    rw [h1, h2]
    congr 1
    exact List.map_congr_left hmapeq

/-- C6, witnessed on the grid [[[0,1],[2,3]]] over axes [0,1] x [0,1] at the
    interior query point (1/2, 1/2): the two interpolators return identical
    curtains. -/
theorem C6_spline_agrees_with_index_witness :
    interpolate_vertsec [[[0,1],[2,3]]] [0,1] [0,1] [(1:ℚ)/2] [(1:ℚ)/2] =
      interpolate_vertsec2 [[[0,1],[2,3]]] [0,1] [0,1] [(1:ℚ)/2] [(1:ℚ)/2] ∧
    (interpolate_vertsec2 [[[0,1],[2,3]]] [0,1] [0,1] [(1:ℚ)/2]
      [(1:ℚ)/2]).isSome = true :=
  C6_spline_agrees_with_index [[[0,1],[2,3]]] [0,1] [0,1] [(1:ℚ)/2] [(1:ℚ)/2]
    1 1 (by norm_num) (by norm_num) (by norm_num) (by norm_num)
    (by intro t ht
        have ht2 : t < 2 := by simpa using ht
        interval_cases t <;> norm_num)
    (by intro t ht
        have ht2 : t < 2 := by simpa using ht
        interval_cases t <;> norm_num)
    (by intro lvl hl
        simp only [List.mem_singleton] at hl
        subst hl
        exact ⟨by norm_num, by intro row hr; fin_cases hr <;> norm_num⟩)
    (by norm_num)
    (by intro t ht
        have ht1 : t < 1 := by simpa using ht
        interval_cases t
        norm_num)
    (by intro t ht
        have ht1 : t < 1 := by simpa using ht
        interval_cases t
        norm_num)

/-- The interp1d index lookup fails (NaN) exactly on out-of-range queries. -/
lemma interp1dIndex_eq_none_iff (axis : List ℚ) (v : ℚ) :
    interp1dIndex axis v = none ↔
      (v < axis.getD 0 0 ∨ axis.getD (axis.length - 1) 0 < v) := by
  unfold interp1dIndex
  split
  · simp_all
  · simp_all

/-- Evaluation of interpolate_vertsec3 once its two guards pass. -/
lemma interpolate_vertsec3_eval (data3D : List (List (List ℚ)))
    (axla axlo lats lons : List ℚ)
    (h2a : 2 ≤ axla.length) (h2o : 2 ≤ axlo.length)
    (hql : lats.length = lons.length) :
    interpolate_vertsec3 data3D axla axlo lats lons =
      some (data3D.map (fun data =>
        (List.range lats.length).map (fun i =>
          match interp1dIndex axla (lats.getD i 0),
                interp1dIndex axlo (lons.getD i 0) with
          | some ci, some cj => some (mapc2 data ci cj)
          | _, _ => none))) := by
  unfold interpolate_vertsec3
  rw [if_neg (by omega), if_neg (by omega)]

/-- C4: for interpolate_vertsec3, a query position whose latitude or
    longitude lies outside its axis range gets the invalid marker at every
    level ml of the output (the whole column is masked), and the call itself
    succeeds. -/
theorem C4_out_of_bounds_column_masked (data3D : List (List (List ℚ)))
    (axla axlo lats lons : List ℚ) (i ml : ℕ)
    (h2a : 2 ≤ axla.length) (h2o : 2 ≤ axlo.length)
    (hql : lats.length = lons.length)
    (hi : i < lats.length) (hml : ml < data3D.length)
    (hoob : (lats.getD i 0 < axla.getD 0 0 ∨
             axla.getD (axla.length - 1) 0 < lats.getD i 0) ∨
            (lons.getD i 0 < axlo.getD 0 0 ∨
             axlo.getD (axlo.length - 1) 0 < lons.getD i 0)) :
    (interpolate_vertsec3 data3D axla axlo lats lons).isSome = true ∧
    (((interpolate_vertsec3 data3D axla axlo lats lons).getD []).getD ml
      []).getD i (some 0) = none := by
  have h3 := interpolate_vertsec3_eval data3D axla axlo lats lons h2a h2o hql
  refine ⟨by rw [h3]; rfl, ?_⟩
  rw [h3, Option.getD_some,
    getD_map_lt _ data3D ml hml [] ([] : List (Option ℚ)),
    getD_range_map _ _ _ hi]
  rcases hoob with h | h
  · have hnone : interp1dIndex axla (lats.getD i 0) = none := by
      unfold interp1dIndex
      rw [if_pos h]
    rw [hnone]
  · have hnone : interp1dIndex axlo (lons.getD i 0) = none := by
      unfold interp1dIndex
      rw [if_pos h]
    rw [hnone]
    cases interp1dIndex axla (lats.getD i 0) <;> rfl

/-- C4 witness: grid [[[0,1],[2,3]]] on axes [0,1] x [0,1]; query position 0
    has latitude 5, outside [0,1]: the call succeeds and position 0 of level
    0 is masked. -/
theorem C4_out_of_bounds_column_masked_witness :
    (interpolate_vertsec3 [[[0,1],[2,3]]] [0,1] [0,1] [5, (1:ℚ)/2] [0, (1:ℚ)/2]).isSome
      = true ∧
    (((interpolate_vertsec3 [[[0,1],[2,3]]] [0,1] [0,1] [5, (1:ℚ)/2]
      [0, (1:ℚ)/2]).getD []).getD 0 []).getD 0 (some 0) = none :=
  C4_out_of_bounds_column_masked [[[0,1],[2,3]]] [0,1] [0,1] [5, (1:ℚ)/2]
    [0, (1:ℚ)/2] 0 0 (by norm_num) (by norm_num) (by norm_num) (by norm_num)
    (by norm_num) (by norm_num)

/-- C10: for interpolate_vertsec3 over rational (finite) data, an output
    element at level ml and position i is valid (unmasked) exactly when both
    the latitude and the longitude of position i lie inside their axis
    ranges: the validity mask flags a column if and only if one of its two
    coordinate lookups failed. -/
theorem C10_valid_iff_in_bounds (data3D : List (List (List ℚ)))
    (axla axlo lats lons : List ℚ) (i ml : ℕ)
    (h2a : 2 ≤ axla.length) (h2o : 2 ≤ axlo.length)
    (hql : lats.length = lons.length)
    (hi : i < lats.length) (hml : ml < data3D.length) :
    ((((interpolate_vertsec3 data3D axla axlo lats lons).getD []).getD ml
      []).getD i none).isSome = true ↔
    (axla.getD 0 0 ≤ lats.getD i 0 ∧
     lats.getD i 0 ≤ axla.getD (axla.length - 1) 0 ∧
     axlo.getD 0 0 ≤ lons.getD i 0 ∧
     lons.getD i 0 ≤ axlo.getD (axlo.length - 1) 0) := by
  have h3 := interpolate_vertsec3_eval data3D axla axlo lats lons h2a h2o hql
  rw [h3, Option.getD_some,
    getD_map_lt _ data3D ml hml [] ([] : List (Option ℚ)),
    getD_range_map _ _ _ hi]
  rcases hEA : interp1dIndex axla (lats.getD i 0) with _ | ci <;>
    rcases hEB : interp1dIndex axlo (lons.getD i 0) with _ | cj
  · have hA := (interp1dIndex_eq_none_iff axla (lats.getD i 0)).mp hEA
    show ((none : Option ℚ)).isSome = true ↔ _
    simp only [Option.isSome_none, Bool.false_eq_true, false_iff]
    intro hc
    rcases hA with h | h <;> linarith [hc.1, hc.2.1]
  · have hA := (interp1dIndex_eq_none_iff axla (lats.getD i 0)).mp hEA
    show ((none : Option ℚ)).isSome = true ↔ _
    simp only [Option.isSome_none, Bool.false_eq_true, false_iff]
    intro hc
    rcases hA with h | h <;> linarith [hc.1, hc.2.1]
  · have hB := (interp1dIndex_eq_none_iff axlo (lons.getD i 0)).mp hEB
    show ((none : Option ℚ)).isSome = true ↔ _
    simp only [Option.isSome_none, Bool.false_eq_true, false_iff]
    intro hc
    rcases hB with h | h <;> linarith [hc.2.2.1, hc.2.2.2]
  · have hA : ¬ (lats.getD i 0 < axla.getD 0 0 ∨
        axla.getD (axla.length - 1) 0 < lats.getD i 0) := by
      rw [← interp1dIndex_eq_none_iff, hEA]
      simp
    have hB : ¬ (lons.getD i 0 < axlo.getD 0 0 ∨
        axlo.getD (axlo.length - 1) 0 < lons.getD i 0) := by
      rw [← interp1dIndex_eq_none_iff, hEB]
      simp
    push_neg at hA hB
    show ((some (mapc2 (data3D.getD ml []) ci cj))).isSome = true ↔ _
    simp only [Option.isSome_some, true_iff]
    exact ⟨hA.1, hA.2, hB.1, hB.2⟩

/-- C10 witness: the in-bounds query position (1/2, 1/2) on grid
    [[[0,1],[2,3]]] receives a valid (unmasked) value at level 0. -/
theorem C10_valid_iff_in_bounds_witness :
    ((((interpolate_vertsec3 [[[0,1],[2,3]]] [0,1] [0,1] [(1:ℚ)/2] [(1:ℚ)/2]).getD
      []).getD 0 []).getD 0 none).isSome = true :=
  (C10_valid_iff_in_bounds [[[0,1],[2,3]]] [0,1] [0,1] [(1:ℚ)/2] [(1:ℚ)/2] 0 0
    (by norm_num) (by norm_num) (by norm_num) (by norm_num) (by norm_num)).mpr
    (by norm_num)

/-- C8 counterexample: a call of interpolate_vertsec with one query latitude
    but two query longitudes — a dimension mismatch the claim says must
    fail — succeeds and returns a full curtain, silently ignoring the extra
    longitude (the diagonal of the 1 x 2 evaluation mesh has length 1). -/
theorem C8_mismatched_call_succeeds :
    interpolate_vertsec [[[0,1],[2,3]]] [0,1] [0,1] [0] [0, 1] = some [[0]] := by
  have hs : strictIncr [(0:ℚ), 1] = true := by
    simp only [strictIncr, Bool.and_eq_true, decide_eq_true_eq]
    norm_num
  have hlvl : ∀ lvl ∈ [[[(0:ℚ),1],[2,3]]],
      gridShape lvl ([(0:ℚ),1]).length ([(0:ℚ),1]).length := by
    intro lvl hl
    simp only [List.mem_singleton] at hl
    subst hl
    exact ⟨by norm_num, by intro row hr; fin_cases hr <;> norm_num⟩
  unfold interpolate_vertsec
  rw [if_neg (show ¬([[[(0:ℚ),1],[2,3]]].length = 0) from by norm_num),
    if_pos ⟨by norm_num, by norm_num, hs, hs, hlvl⟩,
    if_neg (show ¬([(0:ℚ), 1].length < [(0:ℚ)].length) from by norm_num)]
  norm_num [spline2At, lin1, List.range_succ]

/-- C8 amended: neither interpolator performs the claimed dimension
    validation.  interpolate_vertsec with at least as many query longitudes
    as latitudes returns the same curtain as with the longitude list
    silently truncated to the latitude count (extra longitudes are ignored,
    not rejected); and interpolate_vertsec2 never relates the axes to the
    data shape — its result depends only on the first two entries of each
    axis, so an axis/data length mismatch is not detected.  (Only a
    longitude list shorter than the latitude list makes interpolate_vertsec
    abort, as a numpy broadcast failure, and only unequal query lengths make
    interpolate_vertsec2 abort; neither is a dedicated DimensionMismatch
    error.) -/
theorem C8_no_dimension_validation :
    (∀ (data3D : List (List (List ℚ))) (axla axlo lats lons : List ℚ),
      lats.length ≤ lons.length →
      interpolate_vertsec data3D axla axlo lats lons =
        interpolate_vertsec data3D axla axlo lats (lons.take lats.length)) ∧
    (∀ (data3D : List (List (List ℚ))) (axla axlo lats lons : List ℚ),
      interpolate_vertsec2 data3D axla axlo lats lons =
        interpolate_vertsec2 data3D (axla.take 2) (axlo.take 2) lats lons) := by
  constructor
  · intro data3D axla axlo lats lons h
    unfold interpolate_vertsec
    by_cases hdd : data3D.length = 0
    · rw [if_pos hdd, if_pos hdd]
    · rw [if_neg hdd, if_neg hdd]
      by_cases hval : 2 ≤ axla.length ∧ 2 ≤ axlo.length ∧
          strictIncr axla = true ∧ strictIncr axlo = true ∧
          ∀ lvl ∈ data3D, gridShape lvl axla.length axlo.length
      · rw [if_pos hval, if_pos hval,
          if_neg (show ¬(lons.length < lats.length) from by omega),
          if_neg (show ¬((lons.take lats.length).length < lats.length) from by
            simp [List.length_take]; omega)]
        congr 1
        apply List.map_congr_left
        intro data _
        apply List.map_congr_left
        intro t ht
        rw [List.mem_range] at ht
        rw [getD_take lons lats.length t ht 0]
      · rw [if_neg hval, if_neg hval]
  · intro data3D axla axlo lats lons
    unfold interpolate_vertsec2
    by_cases hc1 : axla.length < 2 ∨ axlo.length < 2
    · rw [if_pos hc1,
        if_pos (show (axla.take 2).length < 2 ∨ (axlo.take 2).length < 2 from by
          simp [List.length_take]; omega)]
    · push_neg at hc1
      rw [if_neg (show ¬(axla.length < 2 ∨ axlo.length < 2) from by omega),
        if_neg (show ¬((axla.take 2).length < 2 ∨ (axlo.take 2).length < 2) from by
          simp [List.length_take]; omega)]
      by_cases hc2 : lats.length ≠ lons.length
      · rw [if_pos hc2, if_pos hc2]
      · rw [if_neg hc2, if_neg hc2]
        have ea0 : (axla.take 2).getD 0 0 = axla.getD 0 0 :=
          getD_take axla 2 0 (by omega) 0
        have ea1 : (axla.take 2).getD 1 0 = axla.getD 1 0 :=
          getD_take axla 2 1 (by omega) 0
        have eo0 : (axlo.take 2).getD 0 0 = axlo.getD 0 0 :=
          getD_take axlo 2 0 (by omega) 0
        have eo1 : (axlo.take 2).getD 1 0 = axlo.getD 1 0 :=
          getD_take axlo 2 1 (by omega) 0
        rw [ea0, ea1, eo0, eo1]

/-- C8 amended, witnessed at concrete inputs: truncating the extra longitude
    does not change interpolate_vertsec's result, and shortening the
    too-long latitude axis [0,1,5] to its first two entries does not change
    interpolate_vertsec2's result on a 2 x 2 data grid. -/
theorem C8_no_dimension_validation_witness :
    interpolate_vertsec [[[0,1],[2,3]]] [0,1] [0,1] [0] [(0:ℚ), 1] =
      interpolate_vertsec [[[0,1],[2,3]]] [0,1] [0,1] [0] ([(0:ℚ), 1].take 1) ∧
    interpolate_vertsec2 [[[0,1],[2,3]]] [0,1,5] [0,1] [0] [0] =
      interpolate_vertsec2 [[[0,1],[2,3]]] ([(0:ℚ),1,5].take 2)
        ([(0:ℚ),1].take 2) [0] [0] :=
  ⟨C8_no_dimension_validation.1 [[[0,1],[2,3]]] [0,1] [0,1] [0] [0, 1]
      (by norm_num),
   C8_no_dimension_validation.2 [[[0,1],[2,3]]] [0,1,5] [0,1] [0] [0]⟩

/-- C3 amended, witnessed at concrete inputs: records 600 s apart land in
    different segments; records 599 s apart stay in one segment. -/
theorem C3_boundary_is_inclusive_witness :
    satSegmentationState [⟨0, [1, 2, 3]⟩, ⟨600, [1, 2, 3]⟩] =
      ([finalizeSegment (appendRecord emptySegment ⟨0, [1, 2, 3]⟩)], emptySegment) ∧
    satSegmentationState [⟨0, [1, 2, 3]⟩, ⟨599, [1, 2, 3]⟩] =
      ([], appendRecord (appendRecord emptySegment ⟨0, [1, 2, 3]⟩) ⟨599, [1, 2, 3]⟩) :=
  ⟨(C3_boundary_is_inclusive ⟨0, [1, 2, 3]⟩ ⟨600, [1, 2, 3]⟩).1 (by decide),
   (C3_boundary_is_inclusive ⟨0, [1, 2, 3]⟩ ⟨599, [1, 2, 3]⟩).2 (by decide)⟩

end MSSUtil
